import Mathlib

/-!
Shallow embedding of the availability / booking engine of the calendar-book
repository.

Time is modelled in absolute minutes (`Int`).  An IANA timezone is modelled as
a fixed offset in minutes: local wall-clock minutes of an instant `t` are
`t + tz`.  Local calendar day `d` spans local minutes `[1440*d, 1440*(d+1))`
and we fix local day `0` to be a Monday, so luxon's `weekday`
(1 = Monday .. 7 = Sunday) is `d % 7 + 1`.  `"HH:MM"` wall-clock strings are
modelled by their minute-of-day value, exactly what the source computes with
`split(':').map(Number)`.  Durations that the source stores as minutes or
hours are `Nat` (the DTO layer enforces nonnegativity via `@Min(0)`).

Sources embedded:
  * `SlotGeneratorService.generateSlots`   (src/unnamed/part_006)
  * `BookingService.validateSlot`, `BookingService.createBooking`,
    `BookingService.getAvailableSlots`     (src/server/src/services/organizer.service.ts)
  * `OrganizerService.validateSlot`, `OrganizerService.updateBooking`
                                           (src/server/src/services/organizer.service.ts)
  * the `Booking` entity with its partial unique index on
    `(organizerId, startTime) where status = 'confirmed'` (src/unnamed/part_007)
-/

namespace CalendarBook


/-- Local wall-clock minutes of instant `t` in a zone of offset `tz` minutes. -/
def localMinutes (tz : Int) (t : Int) : Int := t + tz

/-- Organizer-local calendar day of `t` (luxon `toISODate`), as a day number. -/
def localDay (tz : Int) (t : Int) : Int := (t + tz) / 1440

/-- Organizer-local minute of day of `t` (luxon `toFormat 'HH:mm'`). -/
def minuteOfDay (tz : Int) (t : Int) : Int := (t + tz) % 1440

/-- Organizer-local weekday of `t`, 1 = Monday .. 7 = Sunday (luxon `weekday`);
local day 0 is fixed to be a Monday. -/
def weekdayOf (tz : Int) (t : Int) : Int := localDay tz t % 7 + 1

/-- Int of the organizer-local midnight of the day containing `t`
(luxon `startOf('day')`). -/
def startOfLocalDay (tz : Int) (t : Int) : Int := localDay tz t * 1440 - tz

/-- One `workingHours` entry: `day` 1..7 (Monday = 1), `startMin`/`endMin` are
the minute-of-day values of the source's `start`/`end` "HH:MM" strings. -/
structure WorkingHour where
  day : Nat
  startMin : Nat
  endMin : Nat
deriving DecidableEq, Repr

/-- `OrganizerSettings` entity (availability policy).  `timezone` is the fixed
offset (minutes) of the policy's IANA zone; `blackoutDates` holds the local day
numbers of the source's ISO date strings; `minimumNotice` is in hours. -/
structure OrganizerSettings where
  timezone : Int
  workingHours : List WorkingHour
  meetingDuration : Nat
  bufferBefore : Nat
  bufferAfter : Nat
  minimumNotice : Nat
  blackoutDates : List Int
deriving DecidableEq, Repr

inductive BookingStatus where
  | confirmed
  | cancelled
deriving DecidableEq, Repr

/-- `Booking` entity (src/unnamed/part_007).  The `uuid` primary key is
modelled as a `Nat` issued by the store's id counter. -/
structure Booking where
  id : Nat
  organizerId : Nat
  inviteeName : String
  inviteeEmail : String
  startTime : Int
  endTime : Int
  status : BookingStatus
  version : Nat
deriving DecidableEq, Repr

/-- A generated slot; the source renders both instants as ISO strings in the
display timezone, which leaves the instants themselves unchanged. -/
structure TimeSlot where
  start : Int
  stop : Int
deriving DecidableEq, Repr

/-- Error taxonomy of the engine (spec section 7).  `concurrentModification`
is included so that its absence from every code path can be stated. -/
inductive BookingError where
  | insufficientNotice
  | blackoutDate
  | outsideWorkingHours
  | slotConflict
  | slotAlreadyBooked
  | concurrentModification
  | bookingNotFound
  | settingsNotFound
  | organizerNotFound
  | invalidAction
deriving DecidableEq, Repr

/-- The minimum-notice test `startDt < now.plus({ hours: minimumNotice })`,
identical in the generator and in both validators. -/
def noticeViolated (s : OrganizerSettings) (now t : Int) : Bool :=
  decide (t < now + 60 * (s.minimumNotice : Int))

/-- The working-hours lookup
`settings.workingHours.find(wh => wh.day === startDt.weekday)`. -/
def wkEntry (s : OrganizerSettings) (t : Int) : Option WorkingHour :=
  s.workingHours.find? (fun wh => (wh.day : Int) == weekdayOf s.timezone t)

/-- One conjunct of the overlap query in `BookingService.validateSlot`:
same organizer, confirmed, `startTime < :endTime` and `endTime > :startTime`. -/
def overlapsBooking (org : Nat) (startT endT : Int) (b : Booking) : Bool :=
  b.organizerId == org && b.status == BookingStatus.confirmed &&
    decide (b.startTime < endT) && decide (b.endTime > startT)

/-- The overlap query of `OrganizerService.validateSlot`, with the optional
`booking.id != :excludeBookingId` clause. -/
def overlapsBookingExcl (org : Nat) (startT endT : Int) (ex : Option Nat)
    (b : Booking) : Bool :=
  overlapsBooking org startT endT b &&
    (match ex with
     | some i => !(b.id == i)
     | none => true)

/-- `BookingService.validateSlot` (creation path): notice, blackout, existence
of a working-hours entry for the weekday, then the unbuffered overlap count.
Note: unlike the reschedule-path validator, it performs NO comparison of the
candidate against the entry's `[start, end)` wall-clock range. -/
def validateSlotCreate (s : OrganizerSettings) (store : List Booking) (org : Nat)
    (startT endT : Int) (now : Int) : Except BookingError Unit :=
  if noticeViolated s now startT then .error .insufficientNotice
  else if s.blackoutDates.contains (localDay s.timezone startT) then .error .blackoutDate
  else
    match wkEntry s startT with
    | none => .error .outsideWorkingHours
    | some _ =>
      if 0 < store.countP (overlapsBooking org startT endT) then .error .slotConflict
      else .ok ()

/-- `OrganizerService.validateSlot` (reschedule path): notice, blackout,
working-hours entry, the `[start, end)` wall-clock range check (the end minute
is `toFormat 'HH:mm'` of `start + meetingDuration`, so it wraps modulo a day
exactly as the source string does), then the overlap count excluding
`excludeBookingId`. -/
def validateSlotUpdate (s : OrganizerSettings) (store : List Booking) (org : Nat)
    (startT endT : Int) (now : Int) (ex : Option Nat) :
    Except BookingError Unit :=
  if noticeViolated s now startT then .error .insufficientNotice
  else if s.blackoutDates.contains (localDay s.timezone startT) then .error .blackoutDate
  else
    match wkEntry s startT with
    | none => .error .outsideWorkingHours
    | some wh =>
      if decide (minuteOfDay s.timezone startT < (wh.startMin : Int)) ||
         decide ((wh.endMin : Int) < minuteOfDay s.timezone (startT + (s.meetingDuration : Int))) then
        .error .outsideWorkingHours
      else if 0 < store.countP (overlapsBookingExcl org startT endT ex) then
        .error .slotConflict
      else .ok ()

/-- The generator's conflict test for one stored booking: the CANDIDATE is
expanded by the buffers (`slotStart.minus bufferBefore`, `slotEnd.plus
bufferAfter`) and compared against the booking's raw interval. -/
def bufferedConflict (s : OrganizerSettings) (slotStart slotEnd : Int)
    (b : Booking) : Bool :=
  decide (slotStart - (s.bufferBefore : Int) < b.endTime) &&
    decide (b.startTime < slotEnd + (s.bufferAfter : Int))

/-- `existingBookings.some(...)` in `generateSlots`. -/
def slotConflict (s : OrganizerSettings) (slotStart slotEnd : Int)
    (bookings : List Booking) : Bool :=
  bookings.any (bufferedConflict s slotStart slotEnd)

/-- The inner `while (slotStart + duration <= dayEnd)` loop of `generateSlots`.
The `fuel` argument only bounds the iteration count; the loop condition itself
is checked at every step, and the caller passes fuel that covers every
iteration whenever `meetingDuration > 0` (with duration 0 the source loop
would not terminate). -/
def daySlotsAux (s : OrganizerSettings) (bookings : List Booking)
    (now dayEnd : Int) : Nat → Int → List TimeSlot
  | 0, _ => []
  | fuel + 1, slotStart =>
    if slotStart + (s.meetingDuration : Int) ≤ dayEnd then
      if noticeViolated s now slotStart then
        daySlotsAux s bookings now dayEnd fuel (slotStart + (s.meetingDuration : Int))
      else if slotConflict s slotStart (slotStart + (s.meetingDuration : Int)) bookings then
        daySlotsAux s bookings now dayEnd fuel (slotStart + (s.meetingDuration : Int))
      else
        ⟨slotStart, slotStart + (s.meetingDuration : Int)⟩ ::
          daySlotsAux s bookings now dayEnd fuel (slotStart + (s.meetingDuration : Int))
    else []

/-- Slots of one working day: from the entry's start wall-clock time, stepping
by `meetingDuration`, up to the entry's end (`dayStart` is the local-midnight
instant of the day). -/
def daySlots (s : OrganizerSettings) (bookings : List Booking) (now : Int)
    (dayStart : Int) (wh : WorkingHour) : List TimeSlot :=
  let slotStart := dayStart + (wh.startMin : Int)
  let dayEnd := dayStart + (wh.endMin : Int)
  daySlotsAux s bookings now dayEnd ((dayEnd - slotStart).toNat + 1) slotStart

/-- The day loop `for (date = now.startOf('day'); date < endDate; date += 1 day)`
of `generateSlots`: skip blackout days, skip days without a working-hours
entry, else collect the day's slots.  `fuel` bounds the iterations; the
`date < endDate` condition is checked at every step. -/
def genDaysAux (s : OrganizerSettings) (bookings : List Booking)
    (now endDate : Int) : Nat → Int → List TimeSlot
  | 0, _ => []
  | fuel + 1, date =>
    if date < endDate then
      if s.blackoutDates.contains (localDay s.timezone date) then
        genDaysAux s bookings now endDate fuel (date + 1440)
      else
        match wkEntry s date with
        | none => genDaysAux s bookings now endDate fuel (date + 1440)
        | some wh =>
          daySlots s bookings now date wh ++
            genDaysAux s bookings now endDate fuel (date + 1440)
    else []

/-- `SlotGeneratorService.generateSlots` (src/unnamed/part_006).  The window
runs from the local midnight of `now` while `date < now + 14 days`; since that
midnight is at most 1440 minutes before `now`, the loop body executes at most
15 times, so fuel 15 covers every iteration of the source loop. -/
def generateSlots (s : OrganizerSettings) (bookings : List Booking)
    (now : Int) : List TimeSlot :=
  genDaysAux s bookings now (now + 14 * 1440) 15 (startOfLocalDay s.timezone now)

/-- `BookingService.getAvailableSlots`: the generator is fed the organizer's
bookings filtered to `status = 'confirmed'`. -/
def getAvailableSlots (s : OrganizerSettings) (store : List Booking) (org : Nat)
    (now : Int) : List TimeSlot :=
  generateSlots s
    (store.filter (fun b => b.organizerId == org && b.status == BookingStatus.confirmed))
    now

/-- Booking-creation request, after the controller has resolved
`startTime`/`timezone` to an absolute instant (the invitee timezone is used
only for that parse, never for validation). -/
structure CreateBookingDto where
  startTime : Int
  inviteeName : String
  inviteeEmail : String
deriving DecidableEq, Repr

/-- `UpdateBookingDto` (src/server/src/dto/AuthDto.ts): `action` plus an
optional `newStartTime`.  The DTO carries no version field. -/
inductive UpdateAction where
  | reschedule
  | cancel
deriving DecidableEq, Repr

structure UpdateBookingDto where
  action : UpdateAction
  newStartTime : Option Int
deriving DecidableEq, Repr

/-- The bookings table plus the id sequence standing in for uuid generation
(`nextId` has never been issued before). -/
structure Store where
  nextId : Nat
  bookings : List Booking
deriving DecidableEq, Repr

def initialStore : Store := ⟨0, []⟩

/-- True when a confirmed row with key `(org, t)` exists: the predicate of the
partial unique index `(organizerId, startTime) where status = 'confirmed'`
declared on the `Booking` entity (src/unnamed/part_007). -/
def hasConfirmedAt (bookings : List Booking) (org : Nat) (t : Int) : Bool :=
  bookings.any fun b =>
    b.organizerId == org && decide (b.startTime = t) && b.status == BookingStatus.confirmed

/-- The row `repository.create` builds for a booking request: confirmed,
`version = 1`, fresh id. -/
def newBooking (st : Store) (org : Nat) (dto : CreateBookingDto)
    (startT endT : Int) : Booking :=
  ⟨st.nextId, org, dto.inviteeName, dto.inviteeEmail, startT, endT,
    BookingStatus.confirmed, 1⟩

/-- The transactional insert of `BookingService.createBooking`: the row is
written with `status = 'confirmed'` and `version = 1`; if a confirmed row with
the same `(organizerId, startTime)` exists the partial unique index raises
Postgres error 23505, the transaction rolls back (the store is returned
unchanged — no partial row), and the error is mapped to `SlotAlreadyBooked`. -/
def commitInsert (st : Store) (org : Nat) (dto : CreateBookingDto)
    (startT endT : Int) : Except BookingError Booking × Store :=
  if hasConfirmedAt st.bookings org startT then (.error .slotAlreadyBooked, st)
  else
    (.ok (newBooking st org dto startT endT),
      ⟨st.nextId + 1, st.bookings ++ [newBooking st org dto startT endT]⟩)

/-- `BookingService.createBooking`: end time is start plus the CURRENT
policy's `meetingDuration`; validate, then attempt the exclusive insert.
Any failure leaves the store unchanged. -/
def createBooking (s : OrganizerSettings) (st : Store) (org : Nat)
    (dto : CreateBookingDto) (now : Int) : Except BookingError Booking × Store :=
  match validateSlotCreate s st.bookings org dto.startTime
      (dto.startTime + (s.meetingDuration : Int)) now with
  | .error e => (.error e, st)
  | .ok _ =>
    commitInsert st org dto dto.startTime (dto.startTime + (s.meetingDuration : Int))

/-- `repository.save` of a loaded entity: the row with the entity's primary
key is overwritten (ids are unique in the table). -/
def saveBooking (st : Store) (u : Booking) : Store :=
  ⟨st.nextId, st.bookings.map (fun b => if b.id == u.id then u else b)⟩

/-- The entity state saved by the cancel branch: only `status` changes
(TypeORM additionally increments the `@VersionColumn`). -/
def cancelledOf (b : Booking) : Booking :=
  { b with status := BookingStatus.cancelled, version := b.version + 1 }

/-- The entity state saved by the reschedule branch: new interval, version
incremented, everything else (including `status`) untouched. -/
def rescheduledOf (b : Booking) (ns ne : Int) : Booking :=
  { b with startTime := ns, endTime := ne, version := b.version + 1 }

/-- `OrganizerService.updateBooking`: load the booking by id; `cancel` sets
`status = 'cancelled'` unconditionally; `reschedule` looks up the CURRENT
settings of the booking's organizer, computes the new end as
`newStartTime + settings.meetingDuration`, validates the new slot excluding
the booking itself, and overwrites `startTime`/`endTime`.  The row's `status`
is never consulted, no version is received or compared, and TypeORM's
`@VersionColumn` increments `version` on every successful save. -/
def updateBooking (fs : Nat → Option OrganizerSettings) (st : Store)
    (bookingId : Nat) (dto : UpdateBookingDto) (now : Int) :
    Except BookingError Booking × Store :=
  match st.bookings.find? (fun b => b.id == bookingId) with
  | none => (.error .bookingNotFound, st)
  | some booking =>
    match dto.action with
    | .cancel =>
      (.ok (cancelledOf booking), saveBooking st (cancelledOf booking))
    | .reschedule =>
      match dto.newStartTime with
      | none => (.error .invalidAction, st)
      | some ns =>
        match fs booking.organizerId with
        | none => (.error .settingsNotFound, st)
        | some s =>
          match validateSlotUpdate s st.bookings booking.organizerId ns
              (ns + (s.meetingDuration : Int)) now (some bookingId) with
          | .error e => (.error e, st)
          | .ok _ =>
            (.ok (rescheduledOf booking ns (ns + (s.meetingDuration : Int))),
              saveBooking st
                (rescheduledOf booking ns (ns + (s.meetingDuration : Int))))

/-- One engine operation, carrying the policy lookup and clock in effect when
it runs (policies may change between operations). -/
inductive Op where
  | create (s : OrganizerSettings) (org : Nat) (dto : CreateBookingDto) (now : Int)
  | update (fs : Nat → Option OrganizerSettings) (bookingId : Nat)
      (dto : UpdateBookingDto) (now : Int)

/-- Run one operation atomically; a failed operation leaves the store as the
services do (unchanged). -/
def applyOp (st : Store) : Op → Store
  | .create s org dto now => (createBooking s st org dto now).2
  | .update fs bookingId dto now => (updateBooking fs st bookingId dto now).2

def runOps (st : Store) (ops : List Op) : Store :=
  ops.foldl applyOp st

/-- The no-overlap relation between two bookings: if both are confirmed and
belong to the same organizer, their `[startTime, endTime)` intervals are
disjoint. -/
def overlapFree (a b : Booking) : Prop :=
  a.status = BookingStatus.confirmed → b.status = BookingStatus.confirmed →
    a.organizerId = b.organizerId →
    ¬(a.startTime < b.endTime ∧ b.startTime < a.endTime)

instance : DecidableRel overlapFree := fun a b => by
  unfold overlapFree
  infer_instance

/-- The central invariant of the spec: pairwise no overlap among confirmed
bookings of each organizer. -/
def NoOverlap (bookings : List Booking) : Prop :=
  bookings.Pairwise overlapFree

instance (bookings : List Booking) : Decidable (NoOverlap bookings) := by
  unfold NoOverlap
  infer_instance

/-- The store's structural invariant: every stored id was issued by the
counter and ids are unique, plus the no-overlap invariant. -/
def Inv (st : Store) : Prop :=
  (∀ b ∈ st.bookings, b.id < st.nextId) ∧
    (st.bookings.map Booking.id).Nodup ∧ NoOverlap st.bookings

/-! ### Soundness of the slot loops -/

lemma mem_daySlotsAux {s : OrganizerSettings} {bookings : List Booking}
    {now dayEnd : Int} {ts : TimeSlot} :
    ∀ (fuel : Nat) (slotStart : Int),
      ts ∈ daySlotsAux s bookings now dayEnd fuel slotStart →
      noticeViolated s now ts.start = false ∧
      slotConflict s ts.start ts.stop bookings = false ∧
      ts.stop = ts.start + (s.meetingDuration : Int) ∧
      ts.start + (s.meetingDuration : Int) ≤ dayEnd ∧
      slotStart ≤ ts.start := by
  intro fuel
  induction fuel with
  | zero => intro slotStart h; simp [daySlotsAux] at h
  | succ fuel ih =>
    intro slotStart hmem
    simp only [daySlotsAux] at hmem
    split at hmem
    · split at hmem
      · rcases ih _ hmem with ⟨h1, h2, h3, h4, h5⟩
        refine ⟨h1, h2, h3, h4, ?_⟩
        have hd : (0 : Int) ≤ (s.meetingDuration : Int) := Int.ofNat_nonneg _
        omega
      · split at hmem
        · rcases ih _ hmem with ⟨h1, h2, h3, h4, h5⟩
          refine ⟨h1, h2, h3, h4, ?_⟩
          have hd : (0 : Int) ≤ (s.meetingDuration : Int) := Int.ofNat_nonneg _
          omega
        · rcases List.mem_cons.mp hmem with rfl | hmem
          · rename_i hle hnot hcf
            refine ⟨?_, ?_, rfl, hle, le_refl _⟩
            · exact Bool.eq_false_iff.mpr hnot
            · exact Bool.eq_false_iff.mpr hcf
          · rcases ih _ hmem with ⟨h1, h2, h3, h4, h5⟩
            refine ⟨h1, h2, h3, h4, ?_⟩
            have hd : (0 : Int) ≤ (s.meetingDuration : Int) := Int.ofNat_nonneg _
            omega
    · simp at hmem

lemma mem_genDaysAux {s : OrganizerSettings} {bookings : List Booking}
    {now endDate : Int} {ts : TimeSlot} :
    ∀ (fuel : Nat) (date : Int),
      (date + s.timezone) % 1440 = 0 →
      ts ∈ genDaysAux s bookings now endDate fuel date →
      ∃ d wh, d < endDate ∧ (d + s.timezone) % 1440 = 0 ∧
        s.blackoutDates.contains (localDay s.timezone d) = false ∧
        wkEntry s d = some wh ∧
        ts ∈ daySlots s bookings now d wh := by
  intro fuel
  induction fuel with
  | zero => intro date hmid h; simp [genDaysAux] at h
  | succ fuel ih =>
    intro date hmid hmem
    simp only [genDaysAux] at hmem
    split at hmem
    · rename_i hlt
      split at hmem
      · exact ih (date + 1440) (by omega) hmem
      · rename_i hblk
        split at hmem
        · exact ih (date + 1440) (by omega) hmem
        · rename_i wh hwk
          rcases List.mem_append.mp hmem with hday | hrest
          · exact ⟨date, wh, hlt, hmid, Bool.eq_false_iff.mpr hblk, hwk, hday⟩
          · exact ih (date + 1440) (by omega) hrest
    · simp at hmem

/-- Everything that holds of a slot emitted by `generateSlots`: it comes from
a day of the window whose local midnight is `d`, that day is not blacked out,
has a working-hours entry `wh`, the slot lies on the day's grid inside
`[d + wh.startMin, d + wh.endMin]`, and both the notice filter and the
buffered-conflict filter passed. -/
lemma generateSlots_sound {s : OrganizerSettings} {bookings : List Booking}
    {now : Int} {ts : TimeSlot}
    (hmem : ts ∈ generateSlots s bookings now) :
    ∃ d wh, d < now + 14 * 1440 ∧ (d + s.timezone) % 1440 = 0 ∧
      s.blackoutDates.contains (localDay s.timezone d) = false ∧
      wkEntry s d = some wh ∧
      noticeViolated s now ts.start = false ∧
      slotConflict s ts.start ts.stop bookings = false ∧
      ts.stop = ts.start + (s.meetingDuration : Int) ∧
      d + (wh.startMin : Int) ≤ ts.start ∧
      ts.start + (s.meetingDuration : Int) ≤ d + (wh.endMin : Int) := by
  unfold generateSlots at hmem
  have hmid : (startOfLocalDay s.timezone now + s.timezone) % 1440 = 0 := by
    unfold startOfLocalDay localDay
    omega
  rcases mem_genDaysAux 15 _ hmid hmem with ⟨d, wh, hlt, hdm, hblk, hwk, hday⟩
  unfold daySlots at hday
  rcases mem_daySlotsAux _ _ hday with ⟨h1, h2, h3, h4, h5⟩
  exact ⟨d, wh, hlt, hdm, hblk, hwk, h1, h2, h3, h5, h4⟩

lemma localDay_add_of_lt {tz d m : Int} (hmid : (d + tz) % 1440 = 0)
    (h0 : 0 ≤ m) (h1 : m < 1440) : localDay tz (d + m) = localDay tz d := by
  unfold localDay
  omega

lemma minuteOfDay_add_of_lt {tz d m : Int} (hmid : (d + tz) % 1440 = 0)
    (h0 : 0 ≤ m) (h1 : m < 1440) : minuteOfDay tz (d + m) = m := by
  unfold minuteOfDay
  omega

lemma weekdayOf_add_of_lt {tz d m : Int} (hmid : (d + tz) % 1440 = 0)
    (h0 : 0 ≤ m) (h1 : m < 1440) : weekdayOf tz (d + m) = weekdayOf tz d := by
  unfold weekdayOf
  rw [localDay_add_of_lt hmid h0 h1]

lemma wkEntry_congr {s : OrganizerSettings} {t u : Int}
    (h : weekdayOf s.timezone t = weekdayOf s.timezone u) :
    wkEntry s t = wkEntry s u := by
  unfold wkEntry
  simp only [h]

/-! ### What a passing validation run guarantees -/

lemma overlapsBooking_eq_true {org : Nat} {startT endT : Int} {b : Booking} :
    overlapsBooking org startT endT b = true ↔
      b.organizerId = org ∧ b.status = BookingStatus.confirmed ∧
        b.startTime < endT ∧ startT < b.endTime := by
  unfold overlapsBooking
  simp [and_assoc]

lemma validateSlotCreate_ok_overlaps {s : OrganizerSettings} {store : List Booking}
    {org : Nat} {startT endT now : Int}
    (h : validateSlotCreate s store org startT endT now = .ok ()) :
    ∀ b ∈ store, overlapsBooking org startT endT b = false := by
  intro b hb
  unfold validateSlotCreate at h
  split at h
  · simp at h
  · split at h
    · simp at h
    · split at h
      · simp at h
      · split at h
        · simp at h
        · rename_i hcnt
          have hz : store.countP (overlapsBooking org startT endT) = 0 := by omega
          have := List.countP_eq_zero.mp hz b hb
          exact Bool.eq_false_iff.mpr this

lemma validateSlotUpdate_ok_overlaps {s : OrganizerSettings} {store : List Booking}
    {org : Nat} {startT endT now : Int} {ex : Option Nat}
    (h : validateSlotUpdate s store org startT endT now ex = .ok ()) :
    ∀ b ∈ store, overlapsBookingExcl org startT endT ex b = false := by
  intro b hb
  unfold validateSlotUpdate at h
  split at h
  · simp at h
  · split at h
    · simp at h
    · split at h
      · simp at h
      · split at h
        · simp at h
        · split at h
          · simp at h
          · rename_i hcnt
            have hz : store.countP (overlapsBookingExcl org startT endT ex) = 0 := by
              omega
            have := List.countP_eq_zero.mp hz b hb
            exact Bool.eq_false_iff.mpr this

/-! ### Preservation of the invariant by the atomic operations -/

lemma saveBooking_map_id (l : List Booking) (u : Booking) :
    (l.map (fun b => if b.id == u.id then u else b)).map Booking.id =
      l.map Booking.id := by
  induction l with
  | nil => rfl
  | cons x xs ih =>
    simp only [List.map_cons, ih, List.cons.injEq, and_true]
    by_cases hx : x.id = u.id
    · simp [hx]
    · simp [hx]

/-- Replacing the unique booking with id `u.id` by `u` keeps the list pairwise
`overlapFree`, provided `u` is `overlapFree` against every other element. -/
lemma pairwise_save {l : List Booking} {u : Booking}
    (hnd : (l.map Booking.id).Nodup) (hpw : l.Pairwise overlapFree)
    (hu : ∀ x ∈ l, x.id ≠ u.id → overlapFree x u ∧ overlapFree u x) :
    (l.map (fun b => if b.id == u.id then u else b)).Pairwise overlapFree := by
  induction l with
  | nil => simp
  | cons x xs ih =>
    simp only [List.map_cons, List.map_cons] at hnd ⊢
    rcases List.pairwise_cons.mp hpw with ⟨hx, hxs⟩
    rcases List.nodup_cons.mp hnd with ⟨hxid, hnds⟩
    refine List.pairwise_cons.mpr ⟨?_, ?_⟩
    · intro y2 hy2
      rcases List.mem_map.mp hy2 with ⟨y, hy, rfl⟩
      by_cases hxu : x.id = u.id
      · have hyne : y.id ≠ u.id := by
          intro hcontra
          exact hxid (List.mem_map.mpr ⟨y, hy, by omega⟩)
        simp only [hxu, beq_self_eq_true, if_pos]
        have hyy : (if y.id == u.id then u else y) = y := by
          simp [hyne]
        rw [hyy]
        exact (hu y (List.mem_cons_of_mem _ hy) hyne).2
      · have hxx : (if x.id == u.id then u else x) = x := by simp [hxu]
        rw [hxx]
        by_cases hyu : y.id = u.id
        · have hyy : (if y.id == u.id then u else y) = u := by simp [hyu]
          rw [hyy]
          exact (hu x (List.mem_cons_self _ _) hxu).1
        · have hyy : (if y.id == u.id then u else y) = y := by simp [hyu]
          rw [hyy]
          exact hx y hy
    · exact ih hnds hxs (fun z hz hzne => hu z (List.mem_cons_of_mem _ hz) hzne)

/-- `Inv` is preserved by overwriting the row with id `u.id` by `u`, when
`u` keeps the issued-id bound and is overlap-free against every other row. -/
lemma saveBooking_inv {st : Store} {u : Booking} (h : Inv st)
    (huid : u.id < st.nextId)
    (hu : ∀ x ∈ st.bookings, x.id ≠ u.id → overlapFree x u ∧ overlapFree u x) :
    Inv (saveBooking st u) := by
  rcases h with ⟨hbound, hnd, hpw⟩
  refine ⟨?_, ?_, ?_⟩
  · intro b hb
    rcases List.mem_map.mp hb with ⟨y, hy, rfl⟩
    by_cases hyu : y.id = u.id
    · simpa [hyu] using huid
    · simpa [hyu] using hbound y hy
  · show ((st.bookings.map (fun b => if b.id == u.id then u else b)).map Booking.id).Nodup
    rw [saveBooking_map_id]
    exact hnd
  · exact pairwise_save hnd hpw hu

lemma createBooking_inv {s : OrganizerSettings} {st : Store} {org : Nat}
    {dto : CreateBookingDto} {now : Int} (h : Inv st) :
    Inv (createBooking s st org dto now).2 := by
  unfold createBooking
  split
  · exact h
  · rename_i u hv
    unfold commitInsert
    split
    · exact h
    · show Inv (⟨st.nextId + 1, st.bookings ++ [newBooking st org dto dto.startTime
        (dto.startTime + (s.meetingDuration : Int))]⟩ : Store)
      rcases h with ⟨hbound, hnd, hpw⟩
      refine ⟨?_, ?_, ?_⟩
      · show ∀ b ∈ st.bookings ++ [newBooking st org dto dto.startTime
            (dto.startTime + (s.meetingDuration : Int))], b.id < st.nextId + 1
        intro b hb
        rcases List.mem_append.mp hb with hb | hb
        · have := hbound b hb
          omega
        · rcases List.mem_singleton.mp hb with rfl
          simp [newBooking]
      · show ((st.bookings ++ [newBooking st org dto dto.startTime
            (dto.startTime + (s.meetingDuration : Int))]).map Booking.id).Nodup
        rw [List.map_append, List.nodup_append]
        refine ⟨hnd, by simp, ?_⟩
        intro a ha hmem
        rcases List.mem_singleton.mp (by simpa using hmem) with rfl
        rcases List.mem_map.mp ha with ⟨b, hb, hid⟩
        have := hbound b hb
        simp [newBooking] at hid
        omega
      · show (st.bookings ++ [newBooking st org dto dto.startTime
            (dto.startTime + (s.meetingDuration : Int))]).Pairwise overlapFree
        rw [List.pairwise_append]
        refine ⟨hpw, List.pairwise_singleton _ _, ?_⟩
        intro x hx y hy
        rcases List.mem_singleton.mp hy with rfl
        intro hxc hyc horg hover
        have hfalse := validateSlotCreate_ok_overlaps hv x hx
        have htrue : overlapsBooking org dto.startTime
            (dto.startTime + (s.meetingDuration : Int)) x = true := by
          refine overlapsBooking_eq_true.mpr ⟨?_, hxc, ?_, ?_⟩
          · simpa [newBooking] using horg
          · simpa [newBooking] using hover.1
          · simpa [newBooking] using hover.2
        rw [hfalse] at htrue
        cases htrue

lemma updateBooking_inv {fs : Nat → Option OrganizerSettings} {st : Store}
    {bookingId : Nat} {dto : UpdateBookingDto} {now : Int} (h : Inv st) :
    Inv (updateBooking fs st bookingId dto now).2 := by
  unfold updateBooking
  split
  · exact h
  · rename_i booking hfind
    have hmem : booking ∈ st.bookings := List.mem_of_find?_eq_some hfind
    have hbid : booking.id = bookingId := by
      have := List.find?_some hfind
      simpa using this
    split
    · -- cancel branch
      refine saveBooking_inv h ?_ ?_
      · simpa [cancelledOf] using h.1 booking hmem
      · intro x hx hxne
        constructor
        · intro hxc huc
          exact absurd huc (by simp [cancelledOf])
        · intro huc
          exact absurd huc (by simp [cancelledOf])
    · -- reschedule branch
      split
      · exact h
      · rename_i ns hns
        split
        · exact h
        · rename_i s hset
          split
          · exact h
          · rename_i u0 hv
            refine saveBooking_inv h ?_ ?_
            · simpa [rescheduledOf] using h.1 booking hmem
            · intro x hx hxne
              have hfalse := validateSlotUpdate_ok_overlaps hv x hx
              have hxid : x.id ≠ bookingId := by
                simp only [rescheduledOf] at hxne
                omega
              have hxexcl : overlapsBooking booking.organizerId ns
                  (ns + (s.meetingDuration : Int)) x = false := by
                unfold overlapsBookingExcl at hfalse
                have hne2 : (!(x.id == bookingId)) = true := by
                  simp [hxid]
                simp only [hne2, Bool.and_true] at hfalse
                exact hfalse
              have hnover : ¬(x.organizerId = booking.organizerId ∧
                  x.status = BookingStatus.confirmed ∧
                  x.startTime < ns + (s.meetingDuration : Int) ∧ ns < x.endTime) := by
                intro hc
                have := overlapsBooking_eq_true.mpr
                  ⟨hc.1, hc.2.1, hc.2.2.1, hc.2.2.2⟩
                rw [hxexcl] at this
                cases this
              constructor
              · intro hxc huc horg hover
                refine hnover ⟨?_, hxc, ?_, ?_⟩
                · simpa [rescheduledOf] using horg
                · simpa [rescheduledOf] using hover.1
                · simpa [rescheduledOf] using hover.2
              · intro huc hxc horg hover
                refine hnover ⟨?_, hxc, ?_, ?_⟩
                · have h2 := horg.symm
                  simpa [rescheduledOf] using h2
                · simpa [rescheduledOf] using hover.2
                · simpa [rescheduledOf] using hover.1


lemma applyOp_inv {st : Store} {op : Op} (h : Inv st) : Inv (applyOp st op) := by
  cases op with
  | create s org dto now => exact createBooking_inv h
  | update fs bookingId dto now => exact updateBooking_inv h

lemma runOps_inv {st : Store} (h : Inv st) (ops : List Op) :
    Inv (runOps st ops) := by
  induction ops generalizing st with
  | nil => exact h
  | cons op ops ih => exact ih (applyOp_inv h)


/-! ### Concrete fixtures for witnesses and counterexamples -/

deriving instance DecidableEq for Except

/-- UTC policy, Mondays 09:00-17:00, 30-minute meetings, no buffers, no
notice, no blackouts. -/
def monSettings : OrganizerSettings := ⟨0, [⟨1, 540, 1020⟩], 30, 0, 0, 0, []⟩

/-- Policy lookup that always answers `monSettings`. -/
def fsMon : Nat → Option OrganizerSettings := fun _ => some monSettings

/-- The section-8 buffer example: 30-minute meetings, bufferBefore 5,
bufferAfter 10 (working hours Mondays 09:00-17:00). -/
def bufSettings : OrganizerSettings := ⟨0, [⟨1, 540, 1020⟩], 30, 5, 10, 0, []⟩

/-- As `bufSettings` but with the Monday grid anchored at 08:50, so 13:50 and
14:20 are candidate starts. -/
def bufSettingsGridA : OrganizerSettings := ⟨0, [⟨1, 530, 1040⟩], 30, 5, 10, 0, []⟩

/-- As `bufSettings` but with the Monday grid anchored at 09:10, so 13:10 and
14:40 are candidate starts. -/
def bufSettingsGridB : OrganizerSettings := ⟨0, [⟨1, 550, 1030⟩], 30, 5, 10, 0, []⟩

/-- As `bufSettings` but with the Monday grid anchored at 09:05, so 14:35 is a
candidate start. -/
def bufSettingsGridC : OrganizerSettings := ⟨0, [⟨1, 545, 1025⟩], 30, 5, 10, 0, []⟩

/-- A confirmed booking 14:00-14:30 of local day 0 (minutes 840-870). -/
def bufBooking : Booking := ⟨0, 0, "a", "a@x", 840, 870, BookingStatus.confirmed, 1⟩

/-- UTC policy with 24 hours minimum notice, Tuesdays 09:00-17:00. -/
def noticeSettings : OrganizerSettings := ⟨0, [⟨2, 540, 1020⟩], 30, 0, 0, 24, []⟩

/-! ### C2 -/

/-- C2, counterexample: with `bufferBefore = 5`, `bufferAfter = 10` and a
confirmed booking 14:00-14:30 (minutes 840-870), the generator OFFERS the
candidate 14:35-15:05 (minutes 875-905), although the claim's discard rule
`candidateStart < bookingEnd + bufferAfter AND candidateEnd > bookingStart -
bufferBefore` (875 < 880 and 905 > 835) says it must be discarded: the code
buffer-expands the candidate, not the booking. -/
theorem generator_buffer_counterexample :
    (⟨875, 905⟩ : TimeSlot) ∈ generateSlots bufSettingsGridC [bufBooking] 0 ∧
    (875 : Int) < bufBooking.endTime + (bufSettingsGridC.bufferAfter : Int) ∧
    bufBooking.startTime - (bufSettingsGridC.bufferBefore : Int) < (905 : Int) := by
  decide

/-- C2 (amended): the generator discards a candidate exactly when
`candidateStart < bookingEnd + bufferBefore AND candidateEnd > bookingStart -
bufferAfter`, i.e. the CANDIDATE is expanded by `[start - bufferBefore,
end + bufferAfter)` and compared against the booking's raw interval (the two
buffers trade places relative to the claim); the concrete section-8 examples
hold as stated: 13:50-14:20 and 14:20-14:50 are never offered against a
14:00-14:30 booking, while 13:10-13:40 and 14:40-15:10 are offered. -/
theorem generator_buffer_rule :
    (∀ (s : OrganizerSettings) (slotStart slotEnd : Int) (b : Booking),
      bufferedConflict s slotStart slotEnd b = true ↔
        (slotStart < b.endTime + (s.bufferBefore : Int) ∧
          b.startTime - (s.bufferAfter : Int) < slotEnd)) ∧
    (bufferedConflict bufSettings 830 860 bufBooking = true ∧
      bufferedConflict bufSettings 860 890 bufBooking = true ∧
      bufferedConflict bufSettings 790 820 bufBooking = false ∧
      bufferedConflict bufSettings 880 910 bufBooking = false) ∧
    ((⟨830, 860⟩ : TimeSlot) ∉ generateSlots bufSettingsGridA [bufBooking] 0 ∧
      (⟨860, 890⟩ : TimeSlot) ∉ generateSlots bufSettingsGridA [bufBooking] 0 ∧
      (⟨790, 820⟩ : TimeSlot) ∈ generateSlots bufSettingsGridB [bufBooking] 0 ∧
      (⟨880, 910⟩ : TimeSlot) ∈ generateSlots bufSettingsGridB [bufBooking] 0) := by
  refine ⟨?_, by decide, by decide⟩
  intro s slotStart slotEnd b
  unfold bufferedConflict
  simp only [Bool.and_eq_true, decide_eq_true_eq]
  constructor
  · rintro ⟨h1, h2⟩
    exact ⟨by omega, by omega⟩
  · rintro ⟨h1, h2⟩
    exact ⟨by omega, by omega⟩

/-! ### C7 -/

/-- C7, counterexample: with `now` 30 minutes past local midnight of a Monday
and Monday working hours 09:00-10:00, the generator emits the slot starting at
minute 20700 = now + 14 days + 8.5 hours, i.e. a slot starting AFTER
`now + 14 days` (= 20190): the day loop iterates whole local days starting at
the midnight before `now`, so the last day sticks out past the window edge. -/
theorem generator_window_counterexample :
    (⟨20700, 20730⟩ : TimeSlot) ∈
      generateSlots ⟨0, [⟨1, 540, 600⟩], 30, 0, 0, 0, []⟩ [] 30 ∧
    30 + 14 * 1440 ≤ (20700 : Int) := by
  decide

/-- C7 (amended): every generated slot starts at or after `now` and strictly
before `now + 15 days`; the bound `now + 14 days` of the claim can be
exceeded by slots of the final iterated day (see the counterexample), since
the loop runs from the local midnight before `now`. -/
theorem generated_slot_window (s : OrganizerSettings) (bookings : List Booking)
    (now : Int) (ts : TimeSlot)
    (hwh : ∀ wh ∈ s.workingHours, wh.endMin ≤ 1440)
    (hmem : ts ∈ generateSlots s bookings now) :
    now ≤ ts.start ∧ ts.start < now + 15 * 1440 := by
  obtain ⟨d, wh, hlt, hdm, hblk, hwk, hnot, hcf, hstop, hlo, hhi⟩ :=
    generateSlots_sound hmem
  have hwhm : wh ∈ s.workingHours := by
    unfold wkEntry at hwk
    exact List.mem_of_find?_eq_some hwk
  have hend : wh.endMin ≤ 1440 := hwh wh hwhm
  have hn : ¬(ts.start < now + 60 * (s.minimumNotice : Int)) := by
    simpa [noticeViolated] using hnot
  constructor
  · omega
  · omega

/-- C7 witness for the amended bound, at a concrete generated slot. -/
theorem generated_slot_window_witness :
    (0 : Int) ≤ (⟨540, 570⟩ : TimeSlot).start ∧
      (⟨540, 570⟩ : TimeSlot).start < 0 + 15 * 1440 :=
  generated_slot_window monSettings [] 0 ⟨540, 570⟩ (by decide) (by decide)

/-! ### C9 -/

/-- C9: a candidate strictly earlier than `now + minimumNotice` is rejected
with InsufficientNotice by both validators (and only such candidates are), a
candidate starting exactly at `now + minimumNotice` passes the notice test,
and every generated slot starts at or after `now + minimumNotice` - the
strict `<` comparison is shared by the generator and both validators. -/
theorem minimum_notice_boundary (s : OrganizerSettings) (store : List Booking)
    (org : Nat) (startT endT now : Int) (ex : Option Nat) :
    (validateSlotCreate s store org startT endT now =
        .error .insufficientNotice ↔
      startT < now + 60 * (s.minimumNotice : Int)) ∧
    (validateSlotUpdate s store org startT endT now ex =
        .error .insufficientNotice ↔
      startT < now + 60 * (s.minimumNotice : Int)) ∧
    noticeViolated s now (now + 60 * (s.minimumNotice : Int)) = false ∧
    (∀ (bookings : List Booking) (ts : TimeSlot),
      ts ∈ generateSlots s bookings now →
        now + 60 * (s.minimumNotice : Int) ≤ ts.start) := by
  refine ⟨?_, ?_, by simp [noticeViolated], ?_⟩
  · cases hnv : noticeViolated s now startT with
    | true =>
      have hp : startT < now + 60 * (s.minimumNotice : Int) := by
        simpa [noticeViolated] using hnv
      simp [validateSlotCreate, hnv, hp]
    | false =>
      have hp : ¬startT < now + 60 * (s.minimumNotice : Int) := by
        simpa [noticeViolated] using hnv
      refine iff_of_false ?_ hp
      intro hh
      unfold validateSlotCreate at hh
      rw [if_neg (by simp [hnv])] at hh
      split at hh
      · simp at hh
      · split at hh
        · simp at hh
        · split at hh <;> simp at hh
  · cases hnv : noticeViolated s now startT with
    | true =>
      have hp : startT < now + 60 * (s.minimumNotice : Int) := by
        simpa [noticeViolated] using hnv
      simp [validateSlotUpdate, hnv, hp]
    | false =>
      have hp : ¬startT < now + 60 * (s.minimumNotice : Int) := by
        simpa [noticeViolated] using hnv
      refine iff_of_false ?_ hp
      intro hh
      unfold validateSlotUpdate at hh
      rw [if_neg (by simp [hnv])] at hh
      split at hh
      · simp at hh
      · split at hh
        · simp at hh
        · split at hh
          · simp at hh
          · split at hh <;> simp at hh
  · intro bookings ts hmem
    obtain ⟨d, wh, hlt, hdm, hblk, hwk, hnot, hcf, hstop, hlo, hhi⟩ :=
      generateSlots_sound hmem
    have hn : ¬(ts.start < now + 60 * (s.minimumNotice : Int)) := by
      simpa [noticeViolated] using hnot
    omega

/-- C9 witness: with 24-hour notice and `now` = minute 600, minute 2039
(one minute short of the boundary) is rejected with InsufficientNotice, and
the boundary minute 2040 itself passes the notice test. -/
theorem minimum_notice_boundary_witness :
    validateSlotCreate noticeSettings [] 0 2039 2069 600 =
        Except.error BookingError.insufficientNotice ∧
      noticeViolated noticeSettings 600 2040 = false ∧
      validateSlotCreate noticeSettings [] 0 2040 2070 600 = Except.ok () :=
  ⟨(minimum_notice_boundary noticeSettings [] 0 2039 2069 600 none).1.mpr
      (by decide),
    by decide, by decide⟩



/-! ### C5 -/

/-- C5, counterexample: Monday 18:00 (minute 1080) is outside the configured
Monday 09:00-17:00 hours, yet the booking-creation validator accepts it while
the reschedule validator rejects it with OutsideWorkingHours: the creation
path never compares the candidate against the entry's time range, so the two
flows do NOT produce identical verdicts. -/
theorem validator_divergence_counterexample :
    validateSlotCreate monSettings [] 0 1080 1110 0 = Except.ok () ∧
    validateSlotUpdate monSettings [] 0 1080 1110 0 none =
      Except.error BookingError.outsideWorkingHours := by
  decide

/-- C5 (amended): with the notice and blackout checks passing, the
reschedule-path validator reports OutsideWorkingHours exactly when the
organizer-local weekday has no working-hours entry OR the candidate's
`[start, start + meetingDuration)` wall-clock range escapes the entry's
`[startTime, endTime)`, while the creation-path validator reports it exactly
when the weekday has no entry - the wall-clock range is checked only on the
reschedule path, so the two flows can disagree. -/
theorem outsideWorkingHours_semantics (s : OrganizerSettings)
    (store : List Booking) (org : Nat) (startT endT now : Int) (ex : Option Nat)
    (hn : noticeViolated s now startT = false)
    (hb : s.blackoutDates.contains (localDay s.timezone startT) = false) :
    (validateSlotCreate s store org startT endT now =
        .error .outsideWorkingHours ↔ wkEntry s startT = none) ∧
    (validateSlotUpdate s store org startT endT now ex =
        .error .outsideWorkingHours ↔
      (wkEntry s startT = none ∨
        ∃ wh, wkEntry s startT = some wh ∧
          (minuteOfDay s.timezone startT < (wh.startMin : Int) ∨
            (wh.endMin : Int) <
              minuteOfDay s.timezone (startT + (s.meetingDuration : Int))))) := by
  constructor
  · unfold validateSlotCreate
    rw [if_neg (by rw [hn]; simp), if_neg (by rw [hb]; simp)]
    split
    · rename_i hwk
      simp [hwk]
    · rename_i wh hwk
      rw [hwk]
      constructor
      · intro hh
        split at hh <;> simp at hh
      · intro hh
        simp at hh
  · unfold validateSlotUpdate
    rw [if_neg (by rw [hn]; simp), if_neg (by rw [hb]; simp)]
    split
    · rename_i hwk
      simp [hwk]
    · rename_i wh hwk
      rw [hwk]
      split
      · rename_i hrange
        have hcond : minuteOfDay s.timezone startT < (wh.startMin : Int) ∨
            (wh.endMin : Int) <
              minuteOfDay s.timezone (startT + (s.meetingDuration : Int)) := by
          simpa using hrange
        constructor
        · intro _
          exact Or.inr ⟨wh, rfl, hcond⟩
        · intro _
          rfl
      · rename_i hrange
        have hcond : ¬(minuteOfDay s.timezone startT < (wh.startMin : Int) ∨
            (wh.endMin : Int) <
              minuteOfDay s.timezone (startT + (s.meetingDuration : Int))) := by
          simpa using hrange
        constructor
        · intro hh
          split at hh <;> simp at hh
        · intro hh
          rcases hh with hno | ⟨wh2, hwh2, hc⟩
          · simp at hno
          · cases Option.some.inj hwh2
            exact absurd hc hcond


/-- C5 witness: at Monday 18:00 against `monSettings` (notice and blackout
pass), the reschedule validator reports OutsideWorkingHours because the end
minute 18:30 exceeds the entry's 17:00. -/
theorem outsideWorkingHours_semantics_witness :
    validateSlotUpdate monSettings [] 0 1080 1110 0 none =
      Except.error BookingError.outsideWorkingHours :=
  (outsideWorkingHours_semantics monSettings [] 0 1080 1110 0 none
      (by decide) (by decide)).2.mpr
    (Or.inr ⟨⟨1, 540, 1020⟩, by decide, by decide⟩)

/-! ### C6 -/

/-- C6: a slot emitted by `getAvailableSlots` (the generator fed the
organizer's confirmed bookings), re-checked at once by the booking-creation
validator against the same store, the same policy and the same clock,
validates OK: the generator's filters are at least as strict as each of the
creation validator's checks. -/
theorem generated_slot_validates (s : OrganizerSettings) (store : List Booking)
    (org : Nat) (now : Int) (ts : TimeSlot)
    (hdur : 0 < s.meetingDuration)
    (hwh : ∀ wh ∈ s.workingHours, wh.endMin ≤ 1440)
    (hmem : ts ∈ getAvailableSlots s store org now) :
    validateSlotCreate s store org ts.start
      (ts.start + (s.meetingDuration : Int)) now = .ok () := by
  unfold getAvailableSlots at hmem
  obtain ⟨d, wh, hlt, hdm, hblk, hwk, hnot, hcf, hstop, hlo, hhi⟩ :=
    generateSlots_sound hmem
  have hwhm : wh ∈ s.workingHours := by
    unfold wkEntry at hwk
    exact List.mem_of_find?_eq_some hwk
  have hend : wh.endMin ≤ 1440 := hwh wh hwhm
  have hm0 : 0 ≤ ts.start - d := by omega
  have hm1 : ts.start - d < 1440 := by omega
  have hds : d + (ts.start - d) = ts.start := by ring
  have hday : localDay s.timezone ts.start = localDay s.timezone d := by
    have h2 := @localDay_add_of_lt s.timezone d (ts.start - d) hdm hm0 hm1
    rw [hds] at h2
    exact h2
  have hweek : weekdayOf s.timezone ts.start = weekdayOf s.timezone d := by
    unfold weekdayOf
    rw [hday]
  have hwk2 : wkEntry s ts.start = some wh := by
    rw [wkEntry_congr hweek]
    exact hwk
  have hblk2 : s.blackoutDates.contains (localDay s.timezone ts.start) = false := by
    rw [hday]
    exact hblk
  have hcnt : store.countP (overlapsBooking org ts.start
      (ts.start + (s.meetingDuration : Int))) = 0 := by
    rw [List.countP_eq_zero]
    intro b hb hpb
    obtain ⟨ho, hc, h1, h2⟩ := overlapsBooking_eq_true.mp hpb
    have hbf : b ∈ store.filter (fun b => b.organizerId == org &&
        b.status == BookingStatus.confirmed) := by
      rw [List.mem_filter]
      exact ⟨hb, by simp [ho, hc]⟩
    have hfalse : bufferedConflict s ts.start ts.stop b = false := by
      unfold slotConflict at hcf
      have h3 := List.any_eq_false.mp hcf b hbf
      exact Bool.eq_false_iff.mpr h3
    have htrue : bufferedConflict s ts.start ts.stop b = true := by
      unfold bufferedConflict
      simp only [Bool.and_eq_true, decide_eq_true_eq]
      constructor
      · omega
      · omega
    rw [hfalse] at htrue
    cases htrue
  have hblk3 : localDay s.timezone ts.start ∉ s.blackoutDates := by
    simpa using hblk2
  simp [validateSlotCreate, hnot, hblk3, hwk2, hcnt]

/-- C6 witness: the first Monday slot generated under `monSettings` from an
empty store validates OK for creation. -/
theorem generated_slot_validates_witness :
    validateSlotCreate monSettings [] 0 (⟨540, 570⟩ : TimeSlot).start
      ((⟨540, 570⟩ : TimeSlot).start + (monSettings.meetingDuration : Int)) 0 =
      .ok () :=
  generated_slot_validates monSettings [] 0 0 ⟨540, 570⟩ (by decide) (by decide)
    (by decide)



/-! ### C1 -/

/-- C1, counterexample: the claim extends the invariant to interleaved
concurrent executions, but validation and the commit are separate storage
operations in `createBooking` (the advisory SELECT, then the INSERT
transaction), and the partial unique index only arbitrates IDENTICAL
`(organizerId, startTime)` keys.  Interleaving two creates for 09:00-09:30
and 09:15-09:45: both validate OK against the empty snapshot, then both
commits succeed (their start keys differ), leaving two overlapping confirmed
bookings for the same organizer. -/
theorem concurrent_creates_counterexample :
    validateSlotCreate monSettings [] 0 540 570 0 = Except.ok () ∧
    validateSlotCreate monSettings [] 0 555 585 0 = Except.ok () ∧
    commitInsert initialStore 0 ⟨540, "a", "a@x"⟩ 540 570 =
      (Except.ok ⟨0, 0, "a", "a@x", 540, 570, BookingStatus.confirmed, 1⟩,
        ⟨1, [⟨0, 0, "a", "a@x", 540, 570, BookingStatus.confirmed, 1⟩]⟩) ∧
    commitInsert ⟨1, [⟨0, 0, "a", "a@x", 540, 570, BookingStatus.confirmed, 1⟩]⟩ 0
        ⟨555, "b", "b@x"⟩ 555 585 =
      (Except.ok ⟨1, 0, "b", "b@x", 555, 585, BookingStatus.confirmed, 1⟩,
        ⟨2, [⟨0, 0, "a", "a@x", 540, 570, BookingStatus.confirmed, 1⟩,
          ⟨1, 0, "b", "b@x", 555, 585, BookingStatus.confirmed, 1⟩]⟩) ∧
    ¬ NoOverlap [⟨0, 0, "a", "a@x", 540, 570, BookingStatus.confirmed, 1⟩,
      ⟨1, 0, "b", "b@x", 555, 585, BookingStatus.confirmed, 1⟩] := by
  decide

/-- C1 (amended): when each operation runs ATOMICALLY (its validate-and-commit
as one indivisible step, the serial schedule), every sequence of
create-booking, reschedule and cancel operations started from the empty store
keeps the no-overlap invariant: among confirmed bookings of one organizer no
two `[startTime, endTime)` intervals intersect.  Under interleaved concurrent
executions the code does NOT guarantee the invariant (see the
counterexample), because the unique index only covers identical start keys. -/
theorem noOverlap_sequential (ops : List Op) :
    NoOverlap (runOps initialStore ops).bookings := by
  have h0 : Inv initialStore :=
    ⟨by simp [initialStore], by simp [initialStore], by simp [initialStore, NoOverlap]⟩
  exact (runOps_inv h0 ops).2.2

/-! ### C3 -/

/-- C3: two commit attempts for the same `(organizerId, startTime)` key,
serialized by the storage layer, with no prior confirmed booking at that key:
the first persists a confirmed row (version 1), the second receives
`SlotAlreadyBooked` - the dedicated conflict outcome, not a generic failure -
and the failed attempt returns the store exactly as the first attempt left
it: no partial row is written. -/
theorem booking_commit_race (st : Store) (org : Nat) (d1 d2 : CreateBookingDto)
    (t e1 e2 : Int) (h : hasConfirmedAt st.bookings org t = false) :
    commitInsert st org d1 t e1 =
      (Except.ok (newBooking st org d1 t e1),
        ⟨st.nextId + 1, st.bookings ++ [newBooking st org d1 t e1]⟩) ∧
    (newBooking st org d1 t e1).status = BookingStatus.confirmed ∧
    (newBooking st org d1 t e1).startTime = t ∧
    (newBooking st org d1 t e1).organizerId = org ∧
    (newBooking st org d1 t e1).version = 1 ∧
    commitInsert ⟨st.nextId + 1, st.bookings ++ [newBooking st org d1 t e1]⟩
        org d2 t e2 =
      (Except.error BookingError.slotAlreadyBooked,
        ⟨st.nextId + 1, st.bookings ++ [newBooking st org d1 t e1]⟩) := by
  refine ⟨?_, rfl, rfl, rfl, rfl, ?_⟩
  · unfold commitInsert
    rw [if_neg (by rw [h]; simp)]
  · have h2 : hasConfirmedAt (st.bookings ++ [newBooking st org d1 t e1]) org t
        = true := by
      unfold hasConfirmedAt
      rw [List.any_append]
      simp [newBooking, hasConfirmedAt]
    unfold commitInsert
    rw [if_pos h2]

/-- C3 witness: the race at minute 540 on the empty store. -/
theorem booking_commit_race_witness :
    commitInsert ⟨1, [newBooking initialStore 0 ⟨540, "x", "x@y"⟩ 540 570]⟩ 0
        ⟨540, "z", "z@w"⟩ 540 570 =
      (Except.error BookingError.slotAlreadyBooked,
        ⟨1, [newBooking initialStore 0 ⟨540, "x", "x@y"⟩ 540 570]⟩) :=
  (booking_commit_race initialStore 0 ⟨540, "x", "x@y"⟩ ⟨540, "z", "z@w"⟩
      540 570 570 (by decide)).2.2.2.2.2

/-! ### C4 -/

/-- A confirmed 09:00-09:30 booking at version 1. -/
def bookingV1 : Booking := ⟨0, 0, "a", "a@x", 540, 570, BookingStatus.confirmed, 1⟩

lemma validateSlotUpdate_no_concurrentModification (s : OrganizerSettings)
    (store : List Booking) (org : Nat) (startT endT now : Int) (ex : Option Nat) :
    validateSlotUpdate s store org startT endT now ex ≠
      Except.error BookingError.concurrentModification := by
  unfold validateSlotUpdate
  split
  · simp
  · split
    · simp
    · split
      · simp
      · split
        · simp
        · split <;> simp

/-- C4, counterexample: the booking is read at version 1; another actor
reschedules it to 11:00 (version becomes 2); the first actor then submits the
reschedule prepared against the stale version-1 view - the update DTO cannot
even carry a version - and the request SUCCEEDS, overwriting the booking and
bumping the version to 3, instead of yielding `ConcurrentModification` and
leaving the version-2 state unchanged. -/
theorem stale_reschedule_counterexample :
    (updateBooking fsMon ⟨1, [bookingV1]⟩ 0 ⟨.reschedule, some 660⟩ 0).1 =
      Except.ok ⟨0, 0, "a", "a@x", 660, 690, BookingStatus.confirmed, 2⟩ ∧
    (updateBooking fsMon
        ⟨1, [⟨0, 0, "a", "a@x", 660, 690, BookingStatus.confirmed, 2⟩]⟩ 0
        ⟨.reschedule, some 780⟩ 0) =
      (Except.ok ⟨0, 0, "a", "a@x", 780, 810, BookingStatus.confirmed, 3⟩,
        ⟨1, [⟨0, 0, "a", "a@x", 780, 810, BookingStatus.confirmed, 3⟩]⟩) := by
  decide

/-- C4 (amended): `updateBooking` performs no optimistic-lock check at all:
the `UpdateBookingDto` has no version field, the update is never conditioned
on the version the caller observed, and NO execution of `updateBooking`
returns `ConcurrentModification`; a stale reschedule that passes slot
validation silently overwrites the booking (see the counterexample). -/
theorem updateBooking_no_concurrentModification
    (fs : Nat → Option OrganizerSettings) (st : Store) (bookingId : Nat)
    (dto : UpdateBookingDto) (now : Int) :
    (updateBooking fs st bookingId dto now).1 ≠
      Except.error BookingError.concurrentModification := by
  unfold updateBooking
  split
  · simp
  · split
    · simp
    · split
      · simp
      · split
        · simp
        · split
          · rename_i e hv
            intro hh
            simp only [Except.error.injEq] at hh
            rw [hh] at hv
            exact validateSlotUpdate_no_concurrentModification _ _ _ _ _ _ _ hv
          · simp

/-- C4 witness for the amended theorem, at the stale-reschedule input. -/
theorem updateBooking_no_concurrentModification_witness :
    (updateBooking fsMon ⟨1, [bookingV1]⟩ 0 ⟨.reschedule, some 780⟩ 0).1 ≠
      Except.error BookingError.concurrentModification :=
  updateBooking_no_concurrentModification fsMon ⟨1, [bookingV1]⟩ 0
    ⟨.reschedule, some 780⟩ 0



/-! ### C8 -/

/-- UTC policy as `monSettings` but with 60-minute meetings. -/
def sixtySettings : OrganizerSettings := ⟨0, [⟨1, 540, 1020⟩], 60, 0, 0, 0, []⟩

/-- C8, counterexample: a booking created under a 30-minute policy
(09:00-09:30 becomes 10:00-10:30) keeps `endTime - startTime = 30`; after the
policy's `meetingDuration` changes to 60, rescheduling that booking to 12:00
produces 12:00-13:00: the reschedule recomputes the duration from the CURRENT
policy instead of keeping the creation-time 30 minutes. -/
theorem reschedule_duration_counterexample :
    (createBooking monSettings initialStore 0 ⟨600, "a", "a@x"⟩ 0).1 =
      Except.ok ⟨0, 0, "a", "a@x", 600, 630, BookingStatus.confirmed, 1⟩ ∧
    (updateBooking (fun _ => some sixtySettings)
        (createBooking monSettings initialStore 0 ⟨600, "a", "a@x"⟩ 0).2 0
        ⟨.reschedule, some 720⟩ 0).1 =
      Except.ok ⟨0, 0, "a", "a@x", 720, 780, BookingStatus.confirmed, 2⟩ ∧
    (780 : Int) - 720 ≠ 630 - 600 := by
  decide

/-- C8 (amended): at creation `endTime = startTime + meetingDuration` of the
CURRENT policy, and every successful reschedule recomputes
`endTime = newStartTime + meetingDuration` from the policy current AT
RESCHEDULE TIME (so a policy change between creation and reschedule changes
the booking's duration); reads never recompute anything. -/
theorem reschedule_uses_current_policy (fs : Nat → Option OrganizerSettings)
    (st : Store) (bookingId : Nat) (dto : UpdateBookingDto) (ns now : Int)
    (u : Booking)
    (hact : dto.action = UpdateAction.reschedule)
    (hns : dto.newStartTime = some ns)
    (h : (updateBooking fs st bookingId dto now).1 = Except.ok u) :
    ∃ s, fs u.organizerId = some s ∧ u.startTime = ns ∧
      u.endTime = ns + (s.meetingDuration : Int) := by
  unfold updateBooking at h
  split at h
  · simp at h
  · rename_i booking hfind
    split at h
    · rename_i hact2
      rw [hact] at hact2
      cases hact2
    · split at h
      · rename_i hns2
        rw [hns] at hns2
        cases hns2
      · rename_i ns2 hns2
        rw [hns] at hns2
        cases Option.some.inj hns2
        split at h
        · simp at h
        · rename_i s hset
          split at h
          · simp at h
          · rename_i u0 hv
            simp only [Except.ok.injEq] at h
            refine ⟨s, ?_, ?_, ?_⟩
            · rw [← h]
              simpa [rescheduledOf] using hset
            · rw [← h]
              simp [rescheduledOf]
            · rw [← h]
              simp [rescheduledOf]

/-- C8 witness for the amended theorem: the reschedule of the counterexample,
whose result booking carries the 60-minute duration of the current policy. -/
theorem reschedule_uses_current_policy_witness :
    ∃ s, (fun _ => some sixtySettings)
        ((⟨0, 0, "a", "a@x", 720, 780, BookingStatus.confirmed, 2⟩ :
          Booking).organizerId) = some s ∧
      (⟨0, 0, "a", "a@x", 720, 780, BookingStatus.confirmed, 2⟩ :
        Booking).startTime = 720 ∧
      (⟨0, 0, "a", "a@x", 720, 780, BookingStatus.confirmed, 2⟩ :
        Booking).endTime = 720 + (s.meetingDuration : Int) :=
  reschedule_uses_current_policy (fun _ => some sixtySettings)
    ⟨1, [⟨0, 0, "a", "a@x", 600, 630, BookingStatus.confirmed, 1⟩]⟩ 0
    ⟨.reschedule, some 720⟩ 720 0
    ⟨0, 0, "a", "a@x", 720, 780, BookingStatus.confirmed, 2⟩ rfl rfl (by decide)

/-! ### C10 -/

/-- C10: `updateBooking` never consults the row's status: rescheduling a
CANCELLED booking is not rejected for its status - whenever the new slot
passes validation the booking's `startTime`/`endTime` are overwritten (and
the version bumped) while `status` remains `cancelled`. -/
theorem cancelled_reschedule_allowed (fs : Nat → Option OrganizerSettings)
    (st : Store) (bookingId : Nat) (dto : UpdateBookingDto) (ns now : Int)
    (booking : Booking) (s : OrganizerSettings)
    (hact : dto.action = UpdateAction.reschedule)
    (hns : dto.newStartTime = some ns)
    (hfind : st.bookings.find? (fun b => b.id == bookingId) = some booking)
    (hset : fs booking.organizerId = some s)
    (hstatus : booking.status = BookingStatus.cancelled)
    (hval : validateSlotUpdate s st.bookings booking.organizerId ns
        (ns + (s.meetingDuration : Int)) now (some bookingId) = .ok ()) :
    updateBooking fs st bookingId dto now =
      (Except.ok (rescheduledOf booking ns (ns + (s.meetingDuration : Int))),
        saveBooking st
          (rescheduledOf booking ns (ns + (s.meetingDuration : Int)))) ∧
    (rescheduledOf booking ns (ns + (s.meetingDuration : Int))).status =
      BookingStatus.cancelled ∧
    (rescheduledOf booking ns (ns + (s.meetingDuration : Int))).startTime = ns := by
  refine ⟨?_, by simp [rescheduledOf, hstatus], rfl⟩
  unfold updateBooking
  split
  · rename_i hf2
    rw [hfind] at hf2
    cases hf2
  · rename_i b2 hf2
    rw [hfind] at hf2
    cases Option.some.inj hf2
    split
    · rename_i hact2
      rw [hact] at hact2
      cases hact2
    · split
      · rename_i hns2
        rw [hns] at hns2
        cases hns2
      · rename_i ns2 hns2
        rw [hns] at hns2
        cases Option.some.inj hns2
        split
        · rename_i hset2
          rw [hset] at hset2
          cases hset2
        · rename_i s2 hset2
          rw [hset] at hset2
          cases Option.some.inj hset2
          split
          · rename_i e hv2
            rw [hval] at hv2
            cases hv2
          · rfl

/-- C10 witness: rescheduling a cancelled 10:00-10:30 booking to 12:00
succeeds and keeps the cancelled status. -/
theorem cancelled_reschedule_allowed_witness :
    updateBooking fsMon
        ⟨1, [⟨0, 0, "a", "a@x", 600, 630, BookingStatus.cancelled, 1⟩]⟩ 0
        ⟨.reschedule, some 720⟩ 0 =
      (Except.ok (rescheduledOf
          ⟨0, 0, "a", "a@x", 600, 630, BookingStatus.cancelled, 1⟩ 720
          (720 + (monSettings.meetingDuration : Int))),
        saveBooking ⟨1, [⟨0, 0, "a", "a@x", 600, 630, BookingStatus.cancelled, 1⟩]⟩
          (rescheduledOf
            ⟨0, 0, "a", "a@x", 600, 630, BookingStatus.cancelled, 1⟩ 720
            (720 + (monSettings.meetingDuration : Int)))) ∧
    (rescheduledOf ⟨0, 0, "a", "a@x", 600, 630, BookingStatus.cancelled, 1⟩ 720
        (720 + (monSettings.meetingDuration : Int))).status =
      BookingStatus.cancelled ∧
    (rescheduledOf ⟨0, 0, "a", "a@x", 600, 630, BookingStatus.cancelled, 1⟩ 720
        (720 + (monSettings.meetingDuration : Int))).startTime = 720 :=
  cancelled_reschedule_allowed fsMon
    ⟨1, [⟨0, 0, "a", "a@x", 600, 630, BookingStatus.cancelled, 1⟩]⟩ 0
    ⟨.reschedule, some 720⟩ 720 0
    ⟨0, 0, "a", "a@x", 600, 630, BookingStatus.cancelled, 1⟩ monSettings
    rfl rfl (by decide) rfl rfl (by decide)


end CalendarBook
